import Mathlib

/-!
Verification of the priority trace-sampling engine
(`pkg/trace/sampler/prioritysampler.go`).

The engine's orchestration layer (`Sample`, `applyRate`, the metric keys and
the rate threshold) is embedded directly from the Go source.  Helpers that the
source calls but whose code is not part of the surveyed material
(`getMetric`, `setMetric`, `GetSamplingPriority`, the signature catalog's
`register`, the sampler backend's `CountSignature` / `CountSample`, and
`GetSignatureSampleRate`) are modelled from the specification, as marked in
their doc comments.  Rates and metric values are modelled as rationals.
-/

/-- The legacy rate key written by this subsystem,
`"_sampling_priority_rate_v1"` in the source. -/
def deprecatedRateKey : String := "_sampling_priority_rate_v1"

/-- The agent-applied rate key, `"_dd.agent_psr"` in the source. -/
def agentRateKey : String := "_dd.agent_psr"

/-- The rule-applied rate key, `"_dd.rule_psr"` in the source. -/
def ruleRateKey : String := "_dd.rule_psr"

/-- Modelled from the spec: the metric key under which the client sets the
sampling priority on the root span ("the root span carries a numeric-metric
mapping used both to read client-set sampling priority and to write back the
effective rate"); its exact string is not named by the surveyed material,
only that it differs from the three rate keys above. -/
def KeySamplingPriority : String := "_sampling_priority_v1"

/-- `prioritySamplingRateThresholdTo1 = 0.3` from the source: the maximum
allowed sampling rate below 1; if surpassed, the rate is set to 1. -/
def prioritySamplingRateThresholdTo1 : ℚ := 3 / 10

/-- A span: service name, parent identifier and the numeric-metric mapping
(`string → float64` in the source, modelled with rational values; the map is
modelled as an association list). -/
structure Span where
  service : String
  parentID : ℕ
  metrics : List (String × ℚ)
deriving DecidableEq, Repr

/-- Lookup of a key in a metric association list (first binding wins, as in a
map where `setMetric` overwrites in place). -/
def lookupMetric : List (String × ℚ) → String → Option ℚ
  | [], _ => none
  | (k, v) :: rest, key => if k = key then some v else lookupMetric rest key

/-- Write a key into a metric association list, overwriting an existing
binding or appending a fresh one. -/
def writeMetric : List (String × ℚ) → String → ℚ → List (String × ℚ)
  | [], key, v => [(key, v)]
  | (k, w) :: rest, key, v =>
      if k = key then (key, v) :: rest else (k, w) :: writeMetric rest key v

/-- Modelled from the spec: `getMetric` — "Reading client priority from the
root span is a lookup in that metric map"; returns the stored value together
with a found flag, and the Go zero value `0` when the key is absent. -/
def getMetric (s : Span) (k : String) : ℚ × Bool :=
  match lookupMetric s.metrics k with
  | some v => (v, true)
  | none => (0, false)

/-- Modelled from the spec: `setMetric` — writes one metric key on the span
("side effect limited to writing one metric key on the root span"). -/
def setMetric (s : Span) (k : String) (v : ℚ) : Span :=
  { s with metrics := writeMetric s.metrics k v }

/-- Modelled from the spec: `GetSamplingPriority` reads the client-set
priority of a span as the lookup of the priority metric key, returning the
value and whether the metric was present. -/
def GetSamplingPriority (s : Span) : ℚ × Bool :=
  getMetric s KeySamplingPriority

/-- `ServiceSignature{Name, Env}`: a `(service, environment)` pair, the unit
of statistical tracking. -/
structure ServiceSignature where
  Name : String
  Env : String
deriving DecidableEq, Repr

/-- `Signature`: a compact numeric identifier for a `(service, environment)`
traffic class. -/
abbrev Signature := ℕ

/-- Lookup of a `ServiceSignature` in the catalog's association list. -/
def lookupSig : List (ServiceSignature × Signature) → ServiceSignature → Option Signature
  | [], _ => none
  | (s, n) :: rest, key => if s = key then some n else lookupSig rest key

/-- Modelled from the spec: the Signature Catalog, a "bidirectional mapping
between a `(service, environment)` pair and a compact numeric signature";
identifiers are "assigned the first time a ServiceSignature is seen" and
"never reused", modelled by a next-identifier allocator. -/
structure serviceKeyCatalog where
  entries : List (ServiceSignature × Signature)
  nextID : Signature
deriving DecidableEq, Repr

/-- Modelled from the spec: `register(sig) -> Signature` "returns the
existing identifier if the pair was seen before, otherwise atomically
allocates and stores a new one". -/
def serviceKeyCatalog.register (cat : serviceKeyCatalog) (svcSig : ServiceSignature) :
    Signature × serviceKeyCatalog :=
  match lookupSig cat.entries svcSig with
  | some sig => (sig, cat)
  | none => (cat.nextID, ⟨cat.entries ++ [(svcSig, cat.nextID)], cat.nextID + 1⟩)

/-- Lookup of a signature's score in the backend's association list. -/
def lookupScore : List (Signature × ℚ) → Signature → Option ℚ
  | [], _ => none
  | (s, v) :: rest, key => if s = key then some v else lookupScore rest key

/-- Increment the score bound to `key` by one, inserting `1` if absent. -/
def bumpScore : List (Signature × ℚ) → Signature → List (Signature × ℚ)
  | [], key => [(key, 1)]
  | (s, v) :: rest, key =>
      if s = key then (s, v + 1) :: rest else (s, v) :: bumpScore rest key

/-- Modelled from the spec: the sampler backend's state — "per-signature
counters" (the Score table) plus "a separate global sampled counter". -/
structure Backend where
  scores : List (Signature × ℚ)
  totalSampled : ℕ
deriving DecidableEq, Repr

/-- The score of a signature, `0` when untracked. -/
def Backend.scoreOf (b : Backend) (sig : Signature) : ℚ :=
  (lookupScore b.scores sig).getD 0

/-- Modelled from the spec: `CountSignature(sig)` "increments the live
counter for `sig`". -/
def Backend.CountSignature (b : Backend) (sig : Signature) : Backend :=
  { b with scores := bumpScore b.scores sig }

/-- Modelled from the spec: `CountSample()` "increments a separate global
'sampled' counter used for aggregate statistics". -/
def Backend.CountSample (b : Backend) : Backend :=
  { b with totalSampled := b.totalSampled + 1 }

/-- Modelled from the spec: the Sampler core — the backend plus the
configuration surface `extraRate`, `targetTPS` and the default rate. -/
structure Sampler where
  Backend : Backend
  extraRate : ℚ
  targetTPS : ℚ
  defaultRate : ℚ
deriving DecidableEq, Repr

/-- Modelled from the spec: `GetSignatureSampleRate(sig)` is
"`min(1, extraRate * targetTPS / estimatedFrequency(sig))`; if the signature
is new/unscored, defer to `GetDefaultSampleRate()`", with the tracked score
standing for the estimated frequency. -/
def Sampler.GetSignatureSampleRate (s : Sampler) (sig : Signature) : ℚ :=
  match lookupScore s.Backend.scores sig with
  | some score => min 1 (s.extraRate * s.targetTPS / score)
  | none => s.defaultRate

/-- `PriorityEngine`: the sampler core together with the signature catalog
(the `rateByService` store and the exit channel belong to the concurrent
lifecycle, which is out of scope of this embedding). -/
structure PriorityEngine where
  Sampler : Sampler
  catalog : serviceKeyCatalog
deriving DecidableEq, Repr

/-- `applyRate` from the source: no-op unless the span is a trace root
(`ParentID == 0`); skips if `agentRateKey` or `ruleRateKey` is present; then,
only if `deprecatedRateKey` is absent, computes the signature's rate, clamps
it to `1` above `prioritySamplingRateThresholdTo1`, and writes it under
`deprecatedRateKey`. -/
def PriorityEngine.applyRate (s : PriorityEngine) (root : Span) (signature : Signature) : Span :=
  if root.parentID ≠ 0 then root
  else if (getMetric root agentRateKey).2 then root
  else if (getMetric root ruleRateKey).2 then root
  else if (getMetric root deprecatedRateKey).2 then root
  else
    let rate := s.Sampler.GetSignatureSampleRate signature
    let rate := if rate > prioritySamplingRateThresholdTo1 then 1 else rate
    setMetric root deprecatedRateKey rate

/-- The outcome of one `Sample` call: the boolean decision, the engine state
after the call, the (possibly annotated) root span, and the trace — the
source reads the trace only for its length and never writes through it. -/
structure SampleResult where
  sampled : Bool
  engine : PriorityEngine
  root : Span
  trace : List Span
deriving DecidableEq, Repr

/-- `Sample` from the source: empty trace returns `false`; otherwise reads
the root's priority (found flag discarded, `samplingPriority, _ :=`),
sets `sampled := priority > 0`, short-circuits for `priority < 0` and
`priority > 1`, and otherwise registers the `(service, env)` signature,
counts it, and — when sampled — applies the rate and counts the sample. -/
def PriorityEngine.Sample (s : PriorityEngine) (trace : List Span) (root : Span)
    (env : String) : SampleResult :=
  if trace.length = 0 then
    ⟨false, s, root, trace⟩
  else
    let samplingPriority := (GetSamplingPriority root).1
    let sampled : Bool := decide (samplingPriority > 0)
    if samplingPriority < 0 then
      ⟨sampled, s, root, trace⟩
    else if samplingPriority > 1 then
      ⟨sampled, s, root, trace⟩
    else
      let rc := s.catalog.register ⟨root.service, env⟩
      let signature := rc.1
      let s1 : PriorityEngine :=
        { Sampler := { s.Sampler with Backend := s.Sampler.Backend.CountSignature signature },
          catalog := rc.2 }
      if sampled then
        let root1 := s1.applyRate root signature
        let s2 : PriorityEngine :=
          { s1 with Sampler := { s1.Sampler with Backend := s1.Sampler.Backend.CountSample } }
        ⟨sampled, s2, root1, trace⟩
      else
        ⟨sampled, s1, root, trace⟩

/-! Helper lemmas about the metric map, the catalog and the backend. -/

theorem lookupMetric_writeMetric_same (m : List (String × ℚ)) (k : String) (v : ℚ) :
    lookupMetric (writeMetric m k v) k = some v := by
  induction m with
  | nil => simp [writeMetric, lookupMetric]
  | cons hd tl ih =>
      obtain ⟨k', w⟩ := hd
      by_cases h : k' = k
      · simp [writeMetric, lookupMetric, h]
      · simp [writeMetric, lookupMetric, h, ih]

theorem lookupMetric_writeMetric_ne (m : List (String × ℚ)) (k k' : String) (v : ℚ)
    (h : k' ≠ k) :
    lookupMetric (writeMetric m k v) k' = lookupMetric m k' := by
  induction m with
  | nil => simp [writeMetric, lookupMetric, Ne.symm h]
  | cons hd tl ih =>
      obtain ⟨q, w⟩ := hd
      by_cases hq : q = k
      · subst hq
        simp [writeMetric, lookupMetric, Ne.symm h]
      · simp [writeMetric, lookupMetric, hq, ih]

theorem lookupSig_append_fresh (l : List (ServiceSignature × Signature))
    (p : ServiceSignature) (n : Signature) (h : lookupSig l p = none) :
    lookupSig (l ++ [(p, n)]) p = some n := by
  induction l with
  | nil => simp [lookupSig]
  | cons hd tl ih =>
      obtain ⟨q, m⟩ := hd
      by_cases hq : q = p
      · simp [lookupSig, hq] at h
      · simp only [lookupSig, hq, if_false, List.cons_append] at h ⊢
        exact ih h

theorem lookupScore_bumpScore_same (l : List (Signature × ℚ)) (key : Signature) :
    lookupScore (bumpScore l key) key = some ((lookupScore l key).getD 0 + 1) := by
  induction l with
  | nil => simp [bumpScore, lookupScore]
  | cons hd tl ih =>
      obtain ⟨s, v⟩ := hd
      by_cases h : s = key
      · simp [bumpScore, lookupScore, h]
      · simp [bumpScore, lookupScore, h, ih]

theorem scoreOf_CountSignature (b : Backend) (sig : Signature) :
    (b.CountSignature sig).scoreOf sig = b.scoreOf sig + 1 := by
  simp [Backend.CountSignature, Backend.scoreOf, lookupScore_bumpScore_same]

theorem scoreOf_CountSample (b : Backend) (sig : Signature) :
    b.CountSample.scoreOf sig = b.scoreOf sig := rfl

theorem key_ne_agent_dep : agentRateKey ≠ deprecatedRateKey := by decide

theorem key_ne_rule_dep : ruleRateKey ≠ deprecatedRateKey := by decide

theorem key_ne_priority_dep : KeySamplingPriority ≠ deprecatedRateKey := by decide

/-! Structural lemmas about `applyRate`. -/

theorem applyRate_of_parent (e : PriorityEngine) (sp : Span) (sig : Signature)
    (h : sp.parentID ≠ 0) : e.applyRate sp sig = sp := by
  simp [PriorityEngine.applyRate, h]

theorem applyRate_of_agent (e : PriorityEngine) (sp : Span) (sig : Signature)
    (h : (getMetric sp agentRateKey).2 = true) : e.applyRate sp sig = sp := by
  unfold PriorityEngine.applyRate
  split_ifs <;> simp_all

theorem applyRate_of_rule (e : PriorityEngine) (sp : Span) (sig : Signature)
    (h : (getMetric sp ruleRateKey).2 = true) : e.applyRate sp sig = sp := by
  unfold PriorityEngine.applyRate
  split_ifs <;> simp_all

theorem applyRate_of_deprecated (e : PriorityEngine) (sp : Span) (sig : Signature)
    (h : (getMetric sp deprecatedRateKey).2 = true) : e.applyRate sp sig = sp := by
  unfold PriorityEngine.applyRate
  split_ifs <;> simp_all

theorem applyRate_parentID (e : PriorityEngine) (sp : Span) (sig : Signature) :
    (e.applyRate sp sig).parentID = sp.parentID := by
  unfold PriorityEngine.applyRate
  split_ifs <;> simp [setMetric]

theorem applyRate_service (e : PriorityEngine) (sp : Span) (sig : Signature) :
    (e.applyRate sp sig).service = sp.service := by
  unfold PriorityEngine.applyRate
  split_ifs <;> simp [setMetric]

theorem applyRate_lookup_ne (e : PriorityEngine) (sp : Span) (sig : Signature)
    (k : String) (hk : k ≠ deprecatedRateKey) :
    lookupMetric (e.applyRate sp sig).metrics k = lookupMetric sp.metrics k := by
  unfold PriorityEngine.applyRate
  split_ifs <;> simp [setMetric, lookupMetric_writeMetric_ne _ _ _ _ hk]

theorem applyRate_self_or_deprecated (e : PriorityEngine) (sp : Span) (sig : Signature) :
    e.applyRate sp sig = sp ∨ (getMetric (e.applyRate sp sig) deprecatedRateKey).2 = true := by
  unfold PriorityEngine.applyRate
  split_ifs
  · exact Or.inl rfl
  · exact Or.inl rfl
  · exact Or.inl rfl
  · exact Or.inl rfl
  · right
    simp [getMetric, setMetric, lookupMetric_writeMetric_same]

/-! Characterization of the `sampled` flag returned by `Sample`. -/

theorem sample_sampled_of_ne_nil (s : PriorityEngine) (trace : List Span) (root : Span)
    (env : String) (htr : trace ≠ []) :
    (s.Sample trace root env).sampled = decide ((GetSamplingPriority root).1 > 0) := by
  have hlen : ¬ trace.length = 0 := by simpa using htr
  by_cases h1 : (GetSamplingPriority root).1 < 0
  · simp [PriorityEngine.Sample, hlen, h1]
  · by_cases h2 : (GetSamplingPriority root).1 > 1
    · simp [PriorityEngine.Sample, hlen, h1, h2]
    · by_cases h3 : (GetSamplingPriority root).1 > 0
      · simp [PriorityEngine.Sample, hlen, h1, h2, h3]
      · simp [PriorityEngine.Sample, hlen, h1, h2, h3]

/-! Concrete values used by the witnesses. -/

/-- A concrete engine with an empty catalog and backend. -/
def wEngine : PriorityEngine := ⟨⟨⟨[], 0⟩, 1, 2, 1/2⟩, ⟨[], 0⟩⟩

/-- A concrete root span with sampling priority `1` and no other metrics. -/
def wRootKeep : Span := ⟨"web", 0, [(KeySamplingPriority, 1)]⟩

/-- A concrete root span with sampling priority `-1`. -/
def wRootDrop : Span := ⟨"web", 0, [(KeySamplingPriority, -1)]⟩

/-- A concrete root span with sampling priority `2`. -/
def wRootUser : Span := ⟨"web", 0, [(KeySamplingPriority, 2)]⟩

/-- A concrete root span carrying no metrics at all. -/
def wRootBare : Span := ⟨"web", 0, []⟩

/-! Claim theorems. -/

/-- C8: for every empty trace, regardless of the root span and the
environment argument, `Sample` returns `false` and performs no side effects:
the engine state (catalog and all counters) and the root span are unchanged. -/
theorem sample_empty_trace (s : PriorityEngine) (root : Span) (env : String) :
    s.Sample [] root env = ⟨false, s, root, []⟩ := rfl

/-- C6: for every non-empty trace whose root span's sampling priority is
strictly negative, `Sample` returns `false`, no signature is registered in
the catalog, and neither the scores nor the sampled counter change (the
whole engine state and the root span are untouched). -/
theorem sample_negative_priority (s : PriorityEngine) (trace : List Span) (root : Span)
    (env : String) (p : ℚ) (htr : trace ≠ [])
    (hpr : lookupMetric root.metrics KeySamplingPriority = some p) (hneg : p < 0) :
    s.Sample trace root env = ⟨false, s, root, trace⟩ := by
  have hlen : ¬ trace.length = 0 := by simpa using htr
  have hg : GetSamplingPriority root = (p, true) := by
    simp [GetSamplingPriority, getMetric, hpr]
  have hnp : ¬ ((0 : ℚ) < p) := by linarith
  simp [PriorityEngine.Sample, hlen, hg, hneg, hnp]

/-- C6 witness: the negative-priority theorem applied at a concrete input. -/
theorem sample_negative_priority_witness :
    wEngine.Sample [wRootDrop] wRootDrop "prod" = ⟨false, wEngine, wRootDrop, [wRootDrop]⟩ :=
  sample_negative_priority wEngine [wRootDrop] wRootDrop "prod" (-1)
    (by simp) rfl (by norm_num)

/-- C7: for every non-empty trace whose root span's sampling priority is
strictly greater than `1`, `Sample` returns `true`, registers no signature,
performs no counting, and does not annotate the root span (the whole engine
state and the root span are untouched). -/
theorem sample_priority_above_one (s : PriorityEngine) (trace : List Span) (root : Span)
    (env : String) (p : ℚ) (htr : trace ≠ [])
    (hpr : lookupMetric root.metrics KeySamplingPriority = some p) (hgt : 1 < p) :
    s.Sample trace root env = ⟨true, s, root, trace⟩ := by
  have hlen : ¬ trace.length = 0 := by simpa using htr
  have hg : GetSamplingPriority root = (p, true) := by
    simp [GetSamplingPriority, getMetric, hpr]
  have h1 : ¬ (p < 0) := by linarith
  have hp0 : (0 : ℚ) < p := by linarith
  simp [PriorityEngine.Sample, hlen, hg, h1, hgt, hp0]

/-- C7 witness: the above-one-priority theorem applied at a concrete input. -/
theorem sample_priority_above_one_witness :
    wEngine.Sample [wRootUser] wRootUser "prod" = ⟨true, wEngine, wRootUser, [wRootUser]⟩ :=
  sample_priority_above_one wEngine [wRootUser] wRootUser "prod" 2
    (by simp) rfl (by norm_num)

theorem applyRate_deprecated_present (e : PriorityEngine) (sp : Span) (sig : Signature)
    (hparent : sp.parentID = 0)
    (hagent : lookupMetric sp.metrics agentRateKey = none)
    (hrule : lookupMetric sp.metrics ruleRateKey = none) :
    (getMetric (e.applyRate sp sig) deprecatedRateKey).2 = true := by
  by_cases hd : lookupMetric sp.metrics deprecatedRateKey = none
  · simp [PriorityEngine.applyRate, hparent, getMetric, hagent, hrule, hd, setMetric,
      lookupMetric_writeMetric_same]
  · obtain ⟨v, hv⟩ := Option.ne_none_iff_exists'.mp hd
    have heq : e.applyRate sp sig = sp :=
      applyRate_of_deprecated e sp sig (by simp [getMetric, hv])
    rw [heq]
    simp [getMetric, hv]

/-- C1: for a non-empty trace whose root has sampling priority exactly `1`,
whose `(service, env)` pair is fresh in the catalog, with neither the agent
rate key nor the rule rate key present on the root and the root having no
parent: `Sample` returns `true`, the catalog gains exactly one new signature
bound to that pair, that signature's score counter increments by one, the
global sampled counter increments by one, and the legacy rate key is present
on the returned root span. -/
theorem sample_priority_one_fresh (s : PriorityEngine) (trace : List Span) (root : Span)
    (env : String) (htr : trace ≠ [])
    (hpr : lookupMetric root.metrics KeySamplingPriority = some 1)
    (hfresh : lookupSig s.catalog.entries ⟨root.service, env⟩ = none)
    (hagent : lookupMetric root.metrics agentRateKey = none)
    (hrule : lookupMetric root.metrics ruleRateKey = none)
    (hparent : root.parentID = 0) :
    (s.Sample trace root env).sampled = true ∧
    (s.Sample trace root env).engine.catalog.entries.length
      = s.catalog.entries.length + 1 ∧
    lookupSig (s.Sample trace root env).engine.catalog.entries ⟨root.service, env⟩
      = some s.catalog.nextID ∧
    (s.Sample trace root env).engine.Sampler.Backend.scoreOf s.catalog.nextID
      = s.Sampler.Backend.scoreOf s.catalog.nextID + 1 ∧
    (s.Sample trace root env).engine.Sampler.Backend.totalSampled
      = s.Sampler.Backend.totalSampled + 1 ∧
    (getMetric (s.Sample trace root env).root deprecatedRateKey).2 = true := by
  have hlen : ¬ trace.length = 0 := by simpa using htr
  have hg : GetSamplingPriority root = (1, true) := by
    simp [GetSamplingPriority, getMetric, hpr]
  have hreg : s.catalog.register ⟨root.service, env⟩
      = (s.catalog.nextID,
         ⟨s.catalog.entries ++ [(⟨root.service, env⟩, s.catalog.nextID)],
          s.catalog.nextID + 1⟩) := by
    simp [serviceKeyCatalog.register, hfresh]
  have h1 : ¬ ((1 : ℚ) < 0) := by norm_num
  have h2 : ¬ ((1 : ℚ) > 1) := by norm_num
  have h3 : (0 : ℚ) < 1 := by norm_num
  have hres : s.Sample trace root env =
      ⟨true,
       { Sampler := { s.Sampler with
            Backend := (s.Sampler.Backend.CountSignature s.catalog.nextID).CountSample },
         catalog := ⟨s.catalog.entries ++ [(⟨root.service, env⟩, s.catalog.nextID)],
                     s.catalog.nextID + 1⟩ },
       PriorityEngine.applyRate
         { Sampler := { s.Sampler with
              Backend := s.Sampler.Backend.CountSignature s.catalog.nextID },
           catalog := ⟨s.catalog.entries ++ [(⟨root.service, env⟩, s.catalog.nextID)],
                       s.catalog.nextID + 1⟩ }
         root s.catalog.nextID,
       trace⟩ := by
    simp [PriorityEngine.Sample, hlen, hg, hreg, h1, h2, h3]
  rw [hres]
  refine ⟨rfl, by simp, lookupSig_append_fresh _ _ _ hfresh, ?_, rfl, ?_⟩
  · rw [scoreOf_CountSample, scoreOf_CountSignature]
  · exact applyRate_deprecated_present _ root _ hparent hagent hrule

/-- C1 witness: the fresh-keep theorem applied at a concrete input. -/
theorem sample_priority_one_fresh_witness :
    (wEngine.Sample [wRootKeep] wRootKeep "prod").sampled = true ∧
    (wEngine.Sample [wRootKeep] wRootKeep "prod").engine.catalog.entries.length = 1 ∧
    (getMetric (wEngine.Sample [wRootKeep] wRootKeep "prod").root deprecatedRateKey).2
      = true := by
  have h := sample_priority_one_fresh wEngine [wRootKeep] wRootKeep "prod"
    (by simp) (by decide) (by decide) (by decide) (by decide) (by decide)
  exact ⟨h.1, by simpa [wEngine] using h.2.1, h.2.2.2.2.2⟩

/-- C2 counterexample: at a concrete input whose root carries no priority
metric at all, `Sample` does register the `(service, env)` signature and
bumps its score counter — refuting the claim that a missing priority behaves
like an explicit negative priority, which registers nothing. -/
theorem sample_missing_priority_counterexample :
    lookupMetric wRootBare.metrics KeySamplingPriority = none ∧
    (wEngine.Sample [wRootBare] wRootBare "prod").sampled = false ∧
    wEngine.catalog.entries.length = 0 ∧
    (wEngine.Sample [wRootBare] wRootBare "prod").engine.catalog.entries.length = 1 ∧
    (wEngine.Sample [wRootBare] wRootBare "prod").engine.Sampler.Backend.scoreOf 0
      = wEngine.Sampler.Backend.scoreOf 0 + 1 := by
  have hg : GetSamplingPriority wRootBare = (0, false) := rfl
  have h1 : ¬ ((0 : ℚ) < 0) := by norm_num
  have h2 : ¬ ((0 : ℚ) > 1) := by norm_num
  have hreg : wEngine.catalog.register ⟨"web", "prod"⟩
      = (0, ⟨[(⟨"web", "prod"⟩, 0)], 1⟩) := rfl
  have hres : wEngine.Sample [wRootBare] wRootBare "prod" =
      ⟨false,
       { Sampler := { wEngine.Sampler with
            Backend := wEngine.Sampler.Backend.CountSignature 0 },
         catalog := ⟨[(⟨"web", "prod"⟩, 0)], 1⟩ },
       wRootBare, [wRootBare]⟩ := by
    simp [PriorityEngine.Sample, GetSamplingPriority, getMetric, lookupMetric,
      h1, h2, wRootBare, hreg]
  rw [hres]
  exact ⟨rfl, rfl, rfl, rfl, scoreOf_CountSignature _ _⟩

/-- C2 amended: for every non-empty trace whose root span has no priority
metric set, the missing value reads as the Go zero value `0`, so `Sample`
returns `false`, leaves the root span and the global sampled counter
untouched, but — unlike the explicit-negative case — registers the
`(service, env)` signature and increments its score counter. -/
theorem sample_missing_priority (s : PriorityEngine) (trace : List Span) (root : Span)
    (env : String) (htr : trace ≠ [])
    (hpr : lookupMetric root.metrics KeySamplingPriority = none) :
    (s.Sample trace root env).sampled = false ∧
    (s.Sample trace root env).root = root ∧
    (s.Sample trace root env).engine.catalog
      = (s.catalog.register ⟨root.service, env⟩).2 ∧
    (s.Sample trace root env).engine.Sampler.Backend.scoreOf
        (s.catalog.register ⟨root.service, env⟩).1
      = s.Sampler.Backend.scoreOf (s.catalog.register ⟨root.service, env⟩).1 + 1 ∧
    (s.Sample trace root env).engine.Sampler.Backend.totalSampled
      = s.Sampler.Backend.totalSampled := by
  have hlen : ¬ trace.length = 0 := by simpa using htr
  have hg : GetSamplingPriority root = (0, false) := by
    simp [GetSamplingPriority, getMetric, hpr]
  have h1 : ¬ ((0 : ℚ) < 0) := by norm_num
  have h2 : ¬ ((0 : ℚ) > 1) := by norm_num
  have hres : s.Sample trace root env =
      ⟨false,
       { Sampler := { s.Sampler with
            Backend := s.Sampler.Backend.CountSignature
              (s.catalog.register ⟨root.service, env⟩).1 },
         catalog := (s.catalog.register ⟨root.service, env⟩).2 },
       root, trace⟩ := by
    simp [PriorityEngine.Sample, hlen, hg, h1, h2]
  rw [hres]
  exact ⟨rfl, rfl, rfl, scoreOf_CountSignature _ _, rfl⟩

/-- C2 witness: the amended missing-priority theorem at a concrete input. -/
theorem sample_missing_priority_witness :
    (wEngine.Sample [wRootBare] wRootBare "dev").sampled = false ∧
    (wEngine.Sample [wRootBare] wRootBare "dev").engine.Sampler.Backend.totalSampled
      = wEngine.Sampler.Backend.totalSampled := by
  have h := sample_missing_priority wEngine [wRootBare] wRootBare "dev" (by simp) rfl
  exact ⟨h.1, h.2.2.2.2⟩

/-- C3: whenever `applyRate` actually writes the legacy key (the span is a
root, no agent or rule key is present and the legacy key is absent), the
value written is exactly `1` when the raw signature rate exceeds the `0.3`
threshold, and the raw value otherwise. -/
theorem applyRate_threshold (e : PriorityEngine) (root : Span) (sig : Signature)
    (hparent : root.parentID = 0)
    (hagent : lookupMetric root.metrics agentRateKey = none)
    (hrule : lookupMetric root.metrics ruleRateKey = none)
    (hdep : lookupMetric root.metrics deprecatedRateKey = none) :
    lookupMetric (e.applyRate root sig).metrics deprecatedRateKey
      = some (if e.Sampler.GetSignatureSampleRate sig > prioritySamplingRateThresholdTo1
              then 1 else e.Sampler.GetSignatureSampleRate sig) := by
  simp [PriorityEngine.applyRate, hparent, getMetric, hagent, hrule, hdep, setMetric,
    lookupMetric_writeMetric_same]

/-- C3 witness: at a concrete engine whose raw rate is `1/2 > 0.3`, the
written legacy value is exactly `1`, not `1/2`. -/
theorem applyRate_threshold_witness :
    lookupMetric (wEngine.applyRate wRootBare 0).metrics deprecatedRateKey = some 1 := by
  have h := applyRate_threshold wEngine wRootBare 0 rfl rfl rfl rfl
  have hc : wEngine.Sampler.GetSignatureSampleRate 0 > prioritySamplingRateThresholdTo1 := by
    norm_num [wEngine, Sampler.GetSignatureSampleRate, lookupScore,
      prioritySamplingRateThresholdTo1]
  simp [h, hc]

/-- A concrete root span already carrying the agent rate key. -/
def wRootAgent : Span := ⟨"web", 0, [(agentRateKey, 1/2)]⟩

/-- A concrete non-root span (its parent identifier is not zero). -/
def wRootChild : Span := ⟨"web", 7, []⟩

/-- C4: if the agent rate key or the rule rate key is present on the root,
any number of repeated `applyRate` calls leaves the span unchanged; a span
already carrying the legacy key is likewise never overwritten; and
`applyRate` is idempotent on every span (applying it twice equals applying
it once). -/
theorem applyRate_idempotent (e : PriorityEngine) (root : Span) (sig : Signature)
    (hpre : (getMetric root agentRateKey).2 = true ∨ (getMetric root ruleRateKey).2 = true) :
    (∀ n : ℕ, (fun sp => e.applyRate sp sig)^[n] root = root) ∧
    (∀ sp : Span, (getMetric sp deprecatedRateKey).2 = true → e.applyRate sp sig = sp) ∧
    (∀ sp : Span, e.applyRate (e.applyRate sp sig) sig = e.applyRate sp sig) := by
  refine ⟨?_, ?_, ?_⟩
  · have hfix : e.applyRate root sig = root := by
      rcases hpre with h | h
      · exact applyRate_of_agent e root sig h
      · exact applyRate_of_rule e root sig h
    intro n
    exact @Function.iterate_fixed _ (fun sp => e.applyRate sp sig) root hfix n
  · intro sp h
    exact applyRate_of_deprecated e sp sig h
  · intro sp
    rcases applyRate_self_or_deprecated e sp sig with h | h
    · simp only [h]
    · exact applyRate_of_deprecated e _ sig h

/-- C4 witness: the idempotence theorem at concrete inputs. -/
theorem applyRate_idempotent_witness :
    (fun sp => wEngine.applyRate sp 0)^[3] wRootAgent = wRootAgent ∧
    wEngine.applyRate (wEngine.applyRate wRootBare 0) 0 = wEngine.applyRate wRootBare 0 := by
  have h := applyRate_idempotent wEngine wRootAgent 0 (Or.inl rfl)
  exact ⟨h.1 3, h.2.2 wRootBare⟩

theorem sample_trace_eq (s : PriorityEngine) (trace : List Span) (root : Span)
    (env : String) : (s.Sample trace root env).trace = trace := by
  by_cases h0 : trace.length = 0
  · simp [PriorityEngine.Sample, h0]
  · by_cases h1 : (GetSamplingPriority root).1 < 0
    · simp [PriorityEngine.Sample, h0, h1]
    · by_cases h2 : (GetSamplingPriority root).1 > 1
      · simp [PriorityEngine.Sample, h0, h1, h2]
      · by_cases h3 : (GetSamplingPriority root).1 > 0
        · simp [PriorityEngine.Sample, h0, h1, h2, h3]
        · simp [PriorityEngine.Sample, h0, h1, h2, h3]

theorem sample_root_eq (s : PriorityEngine) (trace : List Span) (root : Span)
    (env : String) :
    (s.Sample trace root env).root = root ∨
    (s.Sample trace root env).root =
      PriorityEngine.applyRate
        { Sampler := { s.Sampler with
             Backend := s.Sampler.Backend.CountSignature
               (s.catalog.register ⟨root.service, env⟩).1 },
          catalog := (s.catalog.register ⟨root.service, env⟩).2 }
        root (s.catalog.register ⟨root.service, env⟩).1 := by
  by_cases h0 : trace.length = 0
  · left; simp [PriorityEngine.Sample, h0]
  · by_cases h1 : (GetSamplingPriority root).1 < 0
    · left; simp [PriorityEngine.Sample, h0, h1]
    · by_cases h2 : (GetSamplingPriority root).1 > 1
      · left; simp [PriorityEngine.Sample, h0, h1, h2]
      · by_cases h3 : (GetSamplingPriority root).1 > 0
        · right; simp [PriorityEngine.Sample, h0, h1, h2, h3]
        · left; simp [PriorityEngine.Sample, h0, h1, h2, h3]

/-- C5: a `Sample` call never touches the trace's spans, and mutates the
root span at most at the legacy rate key: the service, the parent identifier
and every metric key other than the legacy one are preserved; moreover
`applyRate` is a no-op on any span that has a parent. -/
theorem sample_frame (s : PriorityEngine) (trace : List Span) (root : Span) (env : String) :
    (s.Sample trace root env).trace = trace ∧
    (s.Sample trace root env).root.service = root.service ∧
    (s.Sample trace root env).root.parentID = root.parentID ∧
    (∀ k : String, k ≠ deprecatedRateKey →
      lookupMetric (s.Sample trace root env).root.metrics k = lookupMetric root.metrics k) ∧
    (root.parentID ≠ 0 →
      ∀ e : PriorityEngine, ∀ sig : Signature, e.applyRate root sig = root) := by
  refine ⟨sample_trace_eq s trace root env, ?_, ?_, ?_, ?_⟩
  · rcases sample_root_eq s trace root env with h | h
    · rw [h]
    · rw [h]; exact applyRate_service _ _ _
  · rcases sample_root_eq s trace root env with h | h
    · rw [h]
    · rw [h]; exact applyRate_parentID _ _ _
  · intro k hk
    rcases sample_root_eq s trace root env with h | h
    · rw [h]
    · rw [h]; exact applyRate_lookup_ne _ _ _ k hk
  · intro hp e sig
    exact applyRate_of_parent e root sig hp

/-- C5 witness: the frame theorem at concrete inputs — the priority key on
the root survives a `Sample` call, and `applyRate` leaves a non-root span
untouched. -/
theorem sample_frame_witness :
    lookupMetric (wEngine.Sample [wRootKeep] wRootKeep "prod").root.metrics
        KeySamplingPriority = lookupMetric wRootKeep.metrics KeySamplingPriority ∧
    wEngine.applyRate wRootChild 0 = wRootChild := by
  refine ⟨(sample_frame wEngine [wRootKeep] wRootKeep "prod").2.2.2.1
    KeySamplingPriority (by decide), ?_⟩
  exact (sample_frame wEngine [wRootChild] wRootChild "prod").2.2.2.2 (by decide) wEngine 0

/-- C10: the boolean returned by `Sample` is determined solely by whether
the trace is empty and by the priority value read from the root span's
metric map — two calls agreeing on those return the same boolean, whatever
the engines' catalogs, scores, counters or configured rates. -/
theorem sample_decision_noninterference (s₁ s₂ : PriorityEngine)
    (t₁ t₂ : List Span) (r₁ r₂ : Span) (e₁ e₂ : String)
    (hempty : t₁ = [] ↔ t₂ = [])
    (hpr : (GetSamplingPriority r₁).1 = (GetSamplingPriority r₂).1) :
    (s₁.Sample t₁ r₁ e₁).sampled = (s₂.Sample t₂ r₂ e₂).sampled := by
  by_cases h : t₁ = []
  · have h2 : t₂ = [] := hempty.mp h
    subst h; subst h2
    rfl
  · have h2 : t₂ ≠ [] := fun hh => h (hempty.mpr hh)
    rw [sample_sampled_of_ne_nil s₁ t₁ r₁ e₁ h, sample_sampled_of_ne_nil s₂ t₂ r₂ e₂ h2, hpr]

/-- A second concrete engine, with different catalog, scores and rates. -/
def wEngine2 : PriorityEngine := ⟨⟨⟨[(0, 5)], 9⟩, 1/2, 7, 1/4⟩, ⟨[(⟨"db", "prod"⟩, 0)], 1⟩⟩

/-- A second concrete root span with priority `1` but different service and
extra metrics. -/
def wRootKeep2 : Span := ⟨"db", 3, [(agentRateKey, 1/2), (KeySamplingPriority, 1)]⟩

/-- C10 witness: two calls with different engines, traces, roots and
environments but equal emptiness and priority agree on the decision. -/
theorem sample_decision_noninterference_witness :
    (wEngine.Sample [wRootKeep] wRootKeep "prod").sampled
      = (wEngine2.Sample [wRootKeep2, wRootBare] wRootKeep2 "dev").sampled :=
  sample_decision_noninterference wEngine wEngine2 [wRootKeep] [wRootKeep2, wRootBare]
    wRootKeep wRootKeep2 "prod" "dev" (by simp) (by decide)
